import Mathlib

/-
Verification development for the fast-withdraw service (`server.py`).

The service exposes `POST /withdraw`; its core `process_withdraw` builds a
32-byte memo from the destination address, renders the canonical L1
authorization message, dual-signs, patches the provisional transaction and
submits it.  The definitions below are a shallow embedding of that code:
pure Python helpers become Lean functions, the remote calls become an
explicit environment of call results, and the control flow of
`process_withdraw` becomes a function producing a result together with the
trace of issued calls.
-/

namespace FastWithdraw

set_option maxRecDepth 4000

/-! ## Hex formatting: models Python `format(n, '016x')` and `format(b, '02x')` -/

/-- Lowercase hex digit character for a value `n < 16` (as produced by
Python `format(_, 'x')`): `0`-`9` then `a`-`f`. -/
def hexDigit (n : Nat) : Char :=
  if n < 10 then Char.ofNat (48 + n) else Char.ofNat (87 + n)

/-- Hex digits (most significant first) of `n`, driven by explicit fuel so the
definition is structural; with fuel `> 0` and `n < 16 ^ fuel` it produces the
standard minimal digit string (`0` gives `"0"`). -/
def natToHexFueled : Nat → Nat → List Char
  | 0, _ => []
  | fuel + 1, n =>
    if n < 16 then [hexDigit n]
    else natToHexFueled fuel (n / 16) ++ [hexDigit (n % 16)]

/-- Python `format(n, '0Wx')`: minimal lowercase hex digits of `n`, left-padded
with `'0'` to width `w`. -/
def pyFormatHex (w n : Nat) : List Char :=
  let ds := natToHexFueled (w + n) n
  List.replicate (w - ds.length) '0' ++ ds

/-- Models `hex16` in `process_withdraw`:
`format(n & 0xFFFFFFFFFFFFFFFF, '016x')` — the value is masked to its low
64 bits (Python `&` on arbitrary ints is `mod 2^64`) and rendered as 16
lowercase hex digits. -/
def hex16 (n : Int) : String :=
  ⟨pyFormatHex 16 (n % (2 ^ 64 : Int)).toNat⟩

/-- Models `memo_hex = ''.join(format(b, '02x') for b in memo_list)`. -/
def memoHex (memo : List Nat) : String :=
  ⟨(memo.map (pyFormatHex 2)).flatten⟩

/-! ## Substring containment: models Python `pat in s` -/

/-- `segAt pat l` holds when `pat` matches at the head of `l`. -/
def segAt : List Char → List Char → Bool
  | [], _ => true
  | _ :: _, [] => false
  | c :: p, d :: l => if c = d then segAt p l else false

/-- `containsSeg pat l` holds when `pat` occurs as a contiguous segment of `l`. -/
def containsSeg : List Char → List Char → Bool
  | pat, [] => segAt pat []
  | pat, l@(_ :: t) => segAt pat l || containsSeg pat t

/-- Models the Python containment test `pat in s` on strings. -/
def strContains (s pat : String) : Bool :=
  containsSeg pat.data s.data

/-- Models line 111 of `server.py`:
`chain_id_hex = "0000000000000130" if "mainnet" in BASE_URL else "000000000000012c"`. -/
def chainIdHex (url : String) : String :=
  if strContains url "mainnet" then "0000000000000130" else "000000000000012c"

/-- Default of the `BASE_URL` environment variable (line 24 of `server.py`). -/
def defaultBaseUrl : String := "https://api.lighter.xyz"

/-! ## Canonical message builder -/

/-- The inputs of the canonical L1 message (the values substituted into the
f-string at lines 113-124 of `server.py`). -/
structure MsgParams where
  nonce : Int
  accountIndex : Int
  apiKeyIndex : Int
  toAccount : Int
  usdcInt : Int
  fee : Int
  baseUrl : String
  memo : List Nat

/-- The canonical L1 message `l1_msg` of `process_withdraw`, literal for
literal from the f-string at lines 113-124 of `server.py`. -/
def buildL1Msg (p : MsgParams) : String :=
  "Transfer\n\nnonce: 0x" ++ hex16 p.nonce ++
  "\nfrom: 0x" ++ hex16 p.accountIndex ++
  " (route 0x0000000000000000)\napi key: 0x" ++ hex16 p.apiKeyIndex ++
  "\nto: 0x" ++ hex16 p.toAccount ++
  " (route 0x0000000000000000)\nasset: 0x0000000000000003\namount: 0x" ++ hex16 p.usdcInt ++
  "\nfee: 0x" ++ hex16 p.fee ++
  "\nchainId: 0x" ++ chainIdHex p.baseUrl ++
  "\nmemo: " ++ memoHex p.memo ++
  "\nOnly sign this message for a trusted client!"

/-! ## Address/memo codec (lines 92-96 of `server.py`) -/

/-- Python `str.lower()` on an ASCII character. -/
def pyLower (c : Char) : Char :=
  if 65 ≤ c.toNat ∧ c.toNat ≤ 90 then Char.ofNat (c.toNat + 32) else c

/-- Python `str.upper()` on an ASCII character (used to state
case-insensitivity). -/
def pyUpper (c : Char) : Char :=
  if 97 ≤ c.toNat ∧ c.toNat ≤ 122 then Char.ofNat (c.toNat - 32) else c

/-- Python `str.removeprefix("0x")`: drops one leading `0x` when present. -/
def strip0x : List Char → List Char
  | '0' :: 'x' :: rest => rest
  | l => l

/-- Hexadecimal digit test, as accepted by Python `bytes.fromhex`. -/
def isHexDigitChar (c : Char) : Bool :=
  (48 ≤ c.toNat && c.toNat ≤ 57) || (97 ≤ c.toNat && c.toNat ≤ 102) ||
    (65 ≤ c.toNat && c.toNat ≤ 70)

/-- Value of a hexadecimal digit character. -/
def hexVal (c : Char) : Nat :=
  if c.toNat ≤ 57 then c.toNat - 48
  else if 97 ≤ c.toNat then c.toNat - 87
  else c.toNat - 55

/-- ASCII whitespace, ignored between byte pairs by Python `bytes.fromhex`. -/
def isPySpace (c : Char) : Bool :=
  c.toNat = 32 || c.toNat = 9 || c.toNat = 10 || c.toNat = 13 ||
    c.toNat = 11 || c.toNat = 12

/-- Models Python `bytes.fromhex`: ASCII whitespace may separate byte pairs,
each byte is two adjacent hex digits; anything else (including an odd
trailing digit) is a `ValueError`, modelled as `none`. -/
def fromhex : List Char → Option (List Nat)
  | [] => some []
  | [c] => if isPySpace c then some [] else none
  | c :: d :: rest =>
    if isPySpace c then fromhex (d :: rest)
    else if isHexDigitChar c && isHexDigitChar d then
      (fromhex rest).map (fun bs => (16 * hexVal c + hexVal d) :: bs)
    else none

/-- Lines 92-96 of `server.py`: lowercase the address, strip an optional
`0x`, hex-decode, require exactly 20 bytes, append 12 zero bytes.  `ValueError`
is modelled as `Except.error` (the decode-failure message omits Python's
position suffix; the length message is verbatim). -/
def memoOfAddress (toAddr : String) : Except String (List Nat) :=
  match fromhex (strip0x (toAddr.data.map pyLower)) with
  | none => Except.error "non-hexadecimal number found in fromhex() arg"
  | some addrBytes =>
    if addrBytes.length = 20 then Except.ok (addrBytes ++ List.replicate 12 0)
    else Except.error ("Invalid address length: " ++ toString addrBytes.length)

/-! ## Amount conversion (line 99 of `server.py`) -/

/-- Value of a fractional digit string read most-significant first. -/
def fracVal (ds : List Nat) : Nat :=
  ds.foldl (fun a d => 10 * a + d) 0

/-- Exact rational value of the decimal literal `ip.ds` (integer part `ip`,
fractional digits `ds`) — the value `Decimal` parses exactly. -/
def decimalVal (ip : Nat) (ds : List Nat) : ℚ :=
  (ip : ℚ) + (fracVal ds : ℚ) / (10 : ℚ) ^ ds.length

/-- Python `int(...)` on an exact rational: truncation toward zero. -/
def intTrunc (q : ℚ) : Int :=
  Int.tdiv q.num q.den

/-- Line 99 of `server.py`, `int(Decimal(s) * Decimal(10**6))`, evaluated on
the exact decimal value `ip.ds`. -/
def exactMinorUnits (ip : Nat) (ds : List Nat) : Int :=
  intTrunc (decimalVal ip ds * (10 : ℚ) ^ 6)

/-- `q` is a dyadic rational, i.e. exactly representable in binary
floating point of some (any) precision: `q * 2 ^ k` is an integer for some
`k`.  Every IEEE binary64 value that `float(...)` can produce is dyadic. -/
def dyadicRat (q : ℚ) : Prop :=
  ∃ (m : Int) (k : Nat), q * (2 : ℚ) ^ k = (m : ℚ)

/-! ## JSON objects and the patch step (lines 150-152 of `server.py`) -/

/-- JSON values, as produced by `json.loads` (numbers restricted to the
integers occurring in transaction payloads). -/
inductive Json where
  | null : Json
  | bool (b : Bool) : Json
  | num (n : Int) : Json
  | str (s : String) : Json
  | arr (xs : List Json) : Json
  | obj (fields : List (String × Json)) : Json

/-- Python dict lookup `d[k]` / `d.get(k)` on a parsed JSON object. -/
def dictGet : List (String × Json) → String → Option Json
  | [], _ => none
  | (k, v) :: rest, key => if k = key then some v else dictGet rest key

/-- Python dict assignment `d[k] = v`: replaces the value of an existing key
in place, appends the key otherwise. -/
def dictSet : List (String × Json) → String → Json → List (String × Json)
  | [], key, v => [(key, v)]
  | (k, w) :: rest, key, v =>
    if k = key then (k, v) :: rest else (k, w) :: dictSet rest key v

/-- Lines 150-152 of `server.py`: `tx_info["Memo"] = memo_list` and
`tx_info["L1Sig"] = l1_sig` on the deserialized provisional transaction. -/
def patchTx (tx : List (String × Json)) (memo : List Nat) (l1Sig : String) :
    List (String × Json) :=
  dictSet (dictSet tx "Memo" (Json.arr (memo.map fun b => Json.num (b : Int))))
    "L1Sig" (Json.str l1Sig)

/-! ## The withdrawal flow as a state machine with a call trace -/

/-- The outbound operations `process_withdraw` performs, with the arguments
relevant to the claims. -/
inductive Call where
  | checkClient
  | createAuthToken
  | poolInfoGet (accountIndex : Int)
  | transferFeeInfo (accountIndex toAccountIndex : Int)
  | nextNonce (accountIndex apiKeyIndex : Int)
  | signL1 (msg : String)
  | signTransfer (toAccountIndex usdcAmount fee : Int) (memoArg : String)
      (nonce apiKeyIndex : Int)
  | submitFastWithdraw (txInfo : List (String × Json)) (toAddress : String)

/-- Python exceptions raised by `process_withdraw`, split the way the
handler's `except` clauses split them. -/
inductive PErr where
  | valueError (msg : String)
  | exc (msg : String)

/-- The fields of the pool-info response body that `process_withdraw` reads. -/
structure PoolBody where
  code : Int
  message : String
  toAccountIndex : Int

/-- Modelled from the spec: results of the external exchange-gateway and
signer calls (the `lighter` SDK is not under `src/`).  Per the gateway
contract, each remote call either returns its value or raises an exception
carrying the upstream message, modelled as `Except.error`; `sigHexOf` is the
hex of the secp256k1 personal-message signature produced by `eth_account`. -/
structure Env where
  baseUrl : String
  checkClientErr : Option String
  authTokenRes : Except String String
  poolRes : Except String PoolBody
  feeRes : Except String Int
  nonceRes : Except String Int
  signRes : Except String (List (String × Json))
  submitRes : Except String Json
  sigHexOf : String → String

/-- The per-request inputs of `process_withdraw`.  `amount` is the exact
value of `Decimal(str(amount_usdc))` (the handler passes `amount_usdc`
through binary `float`, which is the subject of the amount-conversion
claim). -/
structure Inp where
  amount : ℚ
  accountIndex : Int
  apiKeyIndex : Int
  toAddr : String

/-- The body of `process_withdraw` (lines 49-173 of `server.py`): the linear
sequence check-client, auth token, pool info (with its `code != 200` check),
fee quote, nonce quote, memo build, amount scaling, canonical message, L1
signature, L2 signing (passing `memo_hex` as the memo argument), patch, and
submission.  Returns the result (or the exception) together with the ordered
trace of issued external calls. -/
def processWithdraw (env : Env) (inp : Inp) : Except PErr Json × List Call :=
  match env.checkClientErr with
  | some err =>
    (Except.error (PErr.exc ("API key verification failed: " ++ err)),
      [Call.checkClient])
  | none =>
  match env.authTokenRes with
  | Except.error err =>
    (Except.error (PErr.exc ("Auth token failed: " ++ err)),
      [Call.checkClient, Call.createAuthToken])
  | Except.ok _authToken =>
  match env.poolRes with
  | Except.error e =>
    (Except.error (PErr.exc e),
      [Call.checkClient, Call.createAuthToken, Call.poolInfoGet inp.accountIndex])
  | Except.ok pool =>
  if pool.code = 200 then
    match env.feeRes with
    | Except.error e =>
      (Except.error (PErr.exc e),
        [Call.checkClient, Call.createAuthToken, Call.poolInfoGet inp.accountIndex,
          Call.transferFeeInfo inp.accountIndex pool.toAccountIndex])
    | Except.ok fee =>
    match env.nonceRes with
    | Except.error e =>
      (Except.error (PErr.exc e),
        [Call.checkClient, Call.createAuthToken, Call.poolInfoGet inp.accountIndex,
          Call.transferFeeInfo inp.accountIndex pool.toAccountIndex,
          Call.nextNonce inp.accountIndex inp.apiKeyIndex])
    | Except.ok nonce =>
    match memoOfAddress inp.toAddr with
    | Except.error m =>
      (Except.error (PErr.valueError m),
        [Call.checkClient, Call.createAuthToken, Call.poolInfoGet inp.accountIndex,
          Call.transferFeeInfo inp.accountIndex pool.toAccountIndex,
          Call.nextNonce inp.accountIndex inp.apiKeyIndex])
    | Except.ok memoList =>
      let usdcInt := intTrunc (inp.amount * (10 : ℚ) ^ 6)
      let msg := buildL1Msg
        ⟨nonce, inp.accountIndex, inp.apiKeyIndex, pool.toAccountIndex,
          usdcInt, fee, env.baseUrl, memoList⟩
      let l1Sig := "0x" ++ env.sigHexOf msg
      match env.signRes with
      | Except.error err =>
        (Except.error (PErr.exc ("L2 signing failed: " ++ err)),
          [Call.checkClient, Call.createAuthToken, Call.poolInfoGet inp.accountIndex,
            Call.transferFeeInfo inp.accountIndex pool.toAccountIndex,
            Call.nextNonce inp.accountIndex inp.apiKeyIndex,
            Call.signL1 msg,
            Call.signTransfer pool.toAccountIndex usdcInt fee (memoHex memoList)
              nonce inp.apiKeyIndex])
      | Except.ok tempTx =>
        let patched := patchTx tempTx memoList l1Sig
        match env.submitRes with
        | Except.error e =>
          (Except.error (PErr.exc e),
            [Call.checkClient, Call.createAuthToken, Call.poolInfoGet inp.accountIndex,
              Call.transferFeeInfo inp.accountIndex pool.toAccountIndex,
              Call.nextNonce inp.accountIndex inp.apiKeyIndex,
              Call.signL1 msg,
              Call.signTransfer pool.toAccountIndex usdcInt fee (memoHex memoList)
                nonce inp.apiKeyIndex,
              Call.submitFastWithdraw patched inp.toAddr])
        | Except.ok result =>
          (Except.ok result,
            [Call.checkClient, Call.createAuthToken, Call.poolInfoGet inp.accountIndex,
              Call.transferFeeInfo inp.accountIndex pool.toAccountIndex,
              Call.nextNonce inp.accountIndex inp.apiKeyIndex,
              Call.signL1 msg,
              Call.signTransfer pool.toAccountIndex usdcInt fee (memoHex memoList)
                nonce inp.apiKeyIndex,
              Call.submitFastWithdraw patched inp.toAddr])
  else
    (Except.error (PErr.exc ("Pool info failed: " ++ pool.message)),
      [Call.checkClient, Call.createAuthToken, Call.poolInfoGet inp.accountIndex])

/-- The parsed `POST /withdraw` request body.  `amountVal` models
`data['amount']` followed by `float(...)`: `none` when the key is missing,
`Except.error` when `float` raises `ValueError`, otherwise the exact decimal
value of `str(float(data['amount']))`. -/
structure Req where
  amountVal : Option (Except String ℚ)
  accountIndex : Int
  apiKeyIndex : Int
  toAddr : String

/-- The error body `jsonify({"error": msg})`. -/
def errBody (msg : String) : Json :=
  Json.obj [("error", Json.str msg)]

/-- The `withdraw` route handler (lines 184-231 of `server.py`): validates
the amount, runs `process_withdraw`, and maps exceptions to HTTP statuses —
`ValueError` to 400 with an `Invalid amount:` body, every other exception to
500 with `str(e)` as the body. -/
def withdrawHandler (env : Env) (req : Req) : Nat × Json :=
  match req.amountVal with
  | none => (400, errBody "Missing \x27amount\x27 parameter")
  | some (Except.error m) => (400, errBody ("Invalid amount: " ++ m))
  | some (Except.ok amount) =>
    if amount ≤ 0 then (400, errBody "Amount must be positive")
    else
      match (processWithdraw env
          { amount := amount, accountIndex := req.accountIndex,
            apiKeyIndex := req.apiKeyIndex, toAddr := req.toAddr }).1 with
      | Except.ok result => (200, result)
      | Except.error (PErr.valueError m) => (400, errBody ("Invalid amount: " ++ m))
      | Except.error (PErr.exc m) => (500, errBody m)

/-! ## Auxiliary predicates used by the claims -/

/-- A character in `0`-`9` or `a`-`f`. -/
def isLowerHexDigit (c : Char) : Bool :=
  (48 ≤ c.toNat && c.toNat ≤ 57) || (97 ≤ c.toNat && c.toNat ≤ 102)

/-- Horner accumulator for `decodeHex`. -/
def decodeHexAux : Nat → List Char → Nat
  | a, [] => a
  | a, c :: l => decodeHexAux (16 * a + hexVal c) l

/-- Value of a big-endian hex digit string (left inverse of the formatter). -/
def decodeHex (l : List Char) : Nat :=
  decodeHexAux 0 l

/-- The read-only remote calls (steps before memo/message/signing). -/
def isReadCall : Call → Bool
  | Call.checkClient => true
  | Call.createAuthToken => true
  | Call.poolInfoGet _ => true
  | Call.transferFeeInfo _ _ => true
  | Call.nextNonce _ _ => true
  | _ => false

/-- The submission call. -/
def isSubmitCall : Call → Bool
  | Call.submitFastWithdraw _ _ => true
  | _ => false

/-- Whether a remote call result is a failure. -/
def exceptFailed {α : Type} : Except String α → Bool
  | Except.error _ => true
  | Except.ok _ => false

/-! ## Concrete scenario data (the end-to-end example of the spec, §8) -/

/-- The example destination address `0x1111...1111`. -/
def exAddr : String := "0x1111111111111111111111111111111111111111"

/-- The memo of the example address: twenty `0x11` bytes and twelve zeros. -/
def exMemo : List Nat := List.replicate 20 17 ++ List.replicate 12 0

/-- Example pool response: success code, pool account index 7. -/
def exPool : PoolBody := { code := 200, message := "", toAccountIndex := 7 }

/-- Example provisional transaction returned by the L2 signer. -/
def exTx : List (String × Json) :=
  [("TxType", Json.num 13), ("Memo", Json.str "placeholder"), ("Nonce", Json.num 42)]

/-- Example message parameters: amount 10.5 USDC (10500000 minor units),
nonce 42, pool account 7, fee 1000, default (testnet) base URL. -/
def exMsgParams : MsgParams :=
  { nonce := 42, accountIndex := 1, apiKeyIndex := 2, toAccount := 7,
    usdcInt := 10500000, fee := 1000, baseUrl := defaultBaseUrl, memo := exMemo }

/-- Environment in which every remote call succeeds. -/
def envOk : Env :=
  { baseUrl := defaultBaseUrl, checkClientErr := none,
    authTokenRes := Except.ok "token", poolRes := Except.ok exPool,
    feeRes := Except.ok 1000, nonceRes := Except.ok 42,
    signRes := Except.ok exTx,
    submitRes := Except.ok (Json.obj [("code", Json.num 200)]),
    sigHexOf := fun _ => "ab" }

/-- Environment whose fee quote fails. -/
def envFeeFail : Env := { envOk with feeRes := Except.error "fee quote unavailable" }

/-- Environment whose submission call fails. -/
def envSubmitFail : Env := { envOk with submitRes := Except.error "submission rejected" }

/-- Well-formed example request: amount 1 USDC. -/
def reqOk : Req :=
  { amountVal := some (Except.ok 1), accountIndex := 1, apiKeyIndex := 2, toAddr := exAddr }

/-- Request with the amount key missing. -/
def reqMissing : Req := { reqOk with amountVal := none }

/-- Request whose destination address decodes to 2 bytes. -/
def reqBadAddr : Req := { reqOk with toAddr := "0x1234" }

/-- Example `process_withdraw` inputs matching `reqOk`. -/
def inpOk : Inp := { amount := 1, accountIndex := 1, apiKeyIndex := 2, toAddr := exAddr }

/-! ## Lemmas on characters and hex formatting -/

theorem data_append (a b : String) : (a ++ b).data = a.data ++ b.data := rfl

theorem hexVal_hexDigit : ∀ n < 16, hexVal (hexDigit n) = n := by decide

theorem isLowerHexDigit_hexDigit : ∀ n < 16, isLowerHexDigit (hexDigit n) = true := by
  decide

theorem lowerHexDigit_ne_x (c : Char) (h : isLowerHexDigit c = true) : c ≠ 'x' := by
  intro he
  subst he
  exact absurd h (by decide)

theorem natToHexFueled_length (fuel : Nat) :
    ∀ n, n < 16 ^ fuel → (natToHexFueled fuel n).length ≤ fuel := by
  induction fuel with
  | zero => intro n h; simp [natToHexFueled]
  | succ f ih =>
    intro n h
    by_cases h16 : n < 16
    · simp [natToHexFueled, h16]
    · have hdiv : n / 16 < 16 ^ f := by
        rw [Nat.div_lt_iff_lt_mul (by norm_num)]
        rw [pow_succ] at h
        exact h
      have := ih (n / 16) hdiv
      simp only [natToHexFueled, if_neg h16, List.length_append, List.length_singleton]
      omega

theorem natToHexFueled_lower (fuel : Nat) :
    ∀ n c, c ∈ natToHexFueled fuel n → isLowerHexDigit c = true := by
  induction fuel with
  | zero => intro n c hc; simp [natToHexFueled] at hc
  | succ f ih =>
    intro n c hc
    by_cases h16 : n < 16
    · simp only [natToHexFueled, if_pos h16, List.mem_singleton] at hc
      subst hc
      exact isLowerHexDigit_hexDigit n h16
    · simp only [natToHexFueled, if_neg h16, List.mem_append, List.mem_singleton] at hc
      rcases hc with hc | hc
      · exact ih _ _ hc
      · subst hc
        exact isLowerHexDigit_hexDigit _ (Nat.mod_lt _ (by norm_num))

theorem decodeHexAux_append (l1 l2 : List Char) :
    ∀ a, decodeHexAux a (l1 ++ l2) = decodeHexAux (decodeHexAux a l1) l2 := by
  induction l1 with
  | nil => intro a; rfl
  | cons c l ih => intro a; simp only [List.cons_append, decodeHexAux]; exact ih _

theorem natToHexFueled_decode (fuel : Nat) :
    ∀ n, n < 16 ^ fuel → decodeHex (natToHexFueled fuel n) = n := by
  induction fuel with
  | zero => intro n h; interval_cases n; rfl
  | succ f ih =>
    intro n h
    by_cases h16 : n < 16
    · show decodeHexAux 0 _ = n
      simp only [natToHexFueled, if_pos h16, decodeHexAux]
      rw [hexVal_hexDigit n h16]
      omega
    · have hdiv : n / 16 < 16 ^ f := by
        rw [Nat.div_lt_iff_lt_mul (by norm_num)]
        rw [pow_succ] at h
        exact h
      show decodeHexAux 0 _ = n
      simp only [natToHexFueled, if_neg h16]
      rw [decodeHexAux_append]
      have hrec : decodeHexAux 0 (natToHexFueled f (n / 16)) = n / 16 := ih _ hdiv
      rw [hrec]
      simp only [decodeHexAux]
      rw [hexVal_hexDigit _ (Nat.mod_lt _ (by norm_num))]
      omega

theorem natToHexFueled_fuel_eq (f1 : Nat) :
    ∀ {f2 n : Nat}, 0 < f1 → 0 < f2 → n < 16 ^ f1 → n < 16 ^ f2 →
      natToHexFueled f1 n = natToHexFueled f2 n := by
  induction f1 with
  | zero => intro f2 n h1 _ _ _; omega
  | succ f ih =>
    intro f2 n _ h2 hlt1 hlt2
    cases f2 with
    | zero => omega
    | succ g =>
      by_cases h16 : n < 16
      · simp [natToHexFueled, h16]
      · have hf : 0 < f := by
          by_contra hc
          have : f = 0 := by omega
          subst this
          simp at hlt1
          omega
        have hg : 0 < g := by
          by_contra hc
          have : g = 0 := by omega
          subst this
          simp at hlt2
          omega
        have hd1 : n / 16 < 16 ^ f := by
          rw [Nat.div_lt_iff_lt_mul (by norm_num)]
          rw [pow_succ] at hlt1
          exact hlt1
        have hd2 : n / 16 < 16 ^ g := by
          rw [Nat.div_lt_iff_lt_mul (by norm_num)]
          rw [pow_succ] at hlt2
          exact hlt2
        simp only [natToHexFueled, if_neg h16]
        rw [ih hf hg hd1 hd2]

theorem pyFormatHex_fuel (w n : Nat) (hw : 0 < w) (h : n < 16 ^ w) :
    pyFormatHex w n =
      List.replicate (w - (natToHexFueled w n).length) '0' ++ natToHexFueled w n := by
  have hbig : n < 16 ^ (w + n) := by
    calc n < 16 ^ w := h
    _ ≤ 16 ^ (w + n) := Nat.pow_le_pow_right (by norm_num) (by omega)
  unfold pyFormatHex
  rw [natToHexFueled_fuel_eq (w + n) (by omega) hw hbig h]

theorem pyFormatHex_length (w n : Nat) (hw : 0 < w) (h : n < 16 ^ w) :
    (pyFormatHex w n).length = w := by
  rw [pyFormatHex_fuel w n hw h]
  have := natToHexFueled_length w n h
  simp only [List.length_append, List.length_replicate]
  omega

theorem decodeHex_pad (k : Nat) (l : List Char) :
    decodeHex (List.replicate k '0' ++ l) = decodeHex l := by
  induction k with
  | zero => rfl
  | succ m ih =>
    show decodeHexAux 0 _ = _
    simp only [List.replicate_succ, List.cons_append, decodeHexAux]
    exact ih

theorem pyFormatHex_decode (w n : Nat) (hw : 0 < w) (h : n < 16 ^ w) :
    decodeHex (pyFormatHex w n) = n := by
  rw [pyFormatHex_fuel w n hw h, decodeHex_pad]
  exact natToHexFueled_decode w n h

theorem pyFormatHex_lower (w n : Nat) :
    ∀ c ∈ pyFormatHex w n, isLowerHexDigit c = true := by
  intro c hc
  unfold pyFormatHex at hc
  simp only [List.mem_append, List.mem_replicate] at hc
  rcases hc with ⟨-, hc⟩ | hc
  · subst hc; decide
  · exact natToHexFueled_lower _ _ _ hc

theorem hex16_masked_lt (n : Int) : (n % (2 ^ 64 : Int)).toNat < 16 ^ 16 := by
  have h2 : (16 : Nat) ^ 16 = 18446744073709551616 := by norm_num
  omega

theorem hex16_length (n : Int) : (hex16 n).data.length = 16 :=
  pyFormatHex_length 16 _ (by norm_num) (hex16_masked_lt n)

theorem hex16_lower (n : Int) : ∀ c ∈ (hex16 n).data, isLowerHexDigit c = true :=
  pyFormatHex_lower 16 _

theorem hex16_decode (n : Int) : decodeHex (hex16 n).data = (n % (2 ^ 64 : Int)).toNat :=
  pyFormatHex_decode 16 _ (by norm_num) (hex16_masked_lt n)

theorem hex16_wrap (n : Int) : hex16 (n + 2 ^ 64) = hex16 n := by
  unfold hex16
  have : (n + 2 ^ 64) % (2 ^ 64 : Int) = n % (2 ^ 64 : Int) := by omega
  rw [this]

/-! ## Lemmas on substring containment -/

theorem segAt_iff (pat : List Char) :
    ∀ l, segAt pat l = true ↔ ∃ t, l = pat ++ t := by
  induction pat with
  | nil => intro l; simp [segAt]
  | cons c p ih =>
    intro l
    cases l with
    | nil => simp [segAt]
    | cons d t' =>
      show (if c = d then segAt p t' else false) = true ↔ _
      by_cases hcd : c = d
      · subst hcd
        rw [if_pos rfl, ih]
        simp
      · rw [if_neg hcd]
        constructor
        · intro h; simp at h
        · rintro ⟨t, ht⟩
          rw [List.cons_append] at ht
          injection ht with h1 h2
          exact absurd h1.symm hcd

theorem containsSeg_iff (pat : List Char) :
    ∀ l, containsSeg pat l = true ↔ ∃ s t, l = s ++ (pat ++ t) := by
  intro l
  induction l with
  | nil =>
    show segAt pat [] = true ↔ _
    rw [segAt_iff]
    constructor
    · rintro ⟨t, ht⟩
      exact ⟨[], t, by simpa using ht⟩
    · rintro ⟨s, t, hst⟩
      have hs : s = [] := by
        cases s with
        | nil => rfl
        | cons a b => simp at hst
      subst hs
      exact ⟨t, by simpa using hst⟩
  | cons d l' ih =>
    show (segAt pat (d :: l') || containsSeg pat l') = true ↔ _
    rw [Bool.or_eq_true, segAt_iff, ih]
    constructor
    · rintro (⟨t, ht⟩ | ⟨s, t, hst⟩)
      · exact ⟨[], t, by simpa using ht⟩
      · exact ⟨d :: s, t, by simp [hst]⟩
    · rintro ⟨s, t, hst⟩
      cases s with
      | nil => exact Or.inl ⟨t, by simpa using hst⟩
      | cons e s' =>
        injection hst with h1 h2
        exact Or.inr ⟨s', t, h2⟩

theorem containsSeg_append_right (pat s t : List Char)
    (h : containsSeg pat t = true) : containsSeg pat (s ++ t) = true := by
  rw [containsSeg_iff] at h ⊢
  obtain ⟨x, y, hxy⟩ := h
  exact ⟨s ++ x, y, by simp [hxy]⟩

theorem containsSeg_self_pre (x t : List Char) : containsSeg x (x ++ t) = true := by
  rw [containsSeg_iff]
  exact ⟨[], t, by simp⟩

theorem containsSeg_drop_head (a b l : List Char)
    (h : containsSeg (a ++ b) l = true) : containsSeg b l = true := by
  rw [containsSeg_iff] at h ⊢
  obtain ⟨s, t, hst⟩ := h
  exact ⟨s ++ a, t, by simp [hst]⟩

theorem strContains_intro (s pat : String) (pre post : List Char)
    (h : s.data = pre ++ (pat.data ++ post)) : strContains s pat = true := by
  unfold strContains
  rw [containsSeg_iff]
  exact ⟨pre, post, h⟩

/-! ## Decomposition of the canonical message -/

theorem buildL1Msg_data (p : MsgParams) :
    (buildL1Msg p).data =
      ("Transfer\n" : String).data ++
      (("\nnonce: 0x" : String).data ++
      ((hex16 p.nonce).data ++
      (("\nfrom: 0x" : String).data ++
      ((hex16 p.accountIndex).data ++
      ((" (route 0x0000000000000000)" : String).data ++
      (("\napi key: 0x" : String).data ++
      ((hex16 p.apiKeyIndex).data ++
      (("\nto: 0x" : String).data ++
      ((hex16 p.toAccount).data ++
      ((" (route 0x0000000000000000)" : String).data ++
      (("\nasset: 0x" : String).data ++
      (("0000000000000003" : String).data ++
      (("\namount: 0x" : String).data ++
      ((hex16 p.usdcInt).data ++
      (("\nfee: 0x" : String).data ++
      ((hex16 p.fee).data ++
      (("\nchainId: 0x" : String).data ++
      ((chainIdHex p.baseUrl).data ++
      (("\nmemo: " : String).data ++
      ((memoHex p.memo).data ++
      ("\nOnly sign this message for a trusted client!" : String).data)))))))))))))))))))) := by
  simp only [buildL1Msg, data_append, List.append_assoc, List.cons_append,
    List.nil_append]

theorem contains_nonce_field (p : MsgParams) :
    strContains (buildL1Msg p) ("\nnonce: 0x" ++ hex16 p.nonce) = true := by
  unfold strContains
  rw [data_append, buildL1Msg_data]
  apply containsSeg_append_right
  rw [← List.append_assoc]
  exact containsSeg_self_pre _ _

theorem contains_from_field (p : MsgParams) :
    strContains (buildL1Msg p) ("\nfrom: 0x" ++ hex16 p.accountIndex) = true := by
  unfold strContains
  rw [data_append, buildL1Msg_data]
  iterate 3 apply containsSeg_append_right
  rw [← List.append_assoc]
  exact containsSeg_self_pre _ _

theorem contains_apikey_field (p : MsgParams) :
    strContains (buildL1Msg p) ("\napi key: 0x" ++ hex16 p.apiKeyIndex) = true := by
  unfold strContains
  rw [data_append, buildL1Msg_data]
  iterate 6 apply containsSeg_append_right
  rw [← List.append_assoc]
  exact containsSeg_self_pre _ _

theorem contains_to_field (p : MsgParams) :
    strContains (buildL1Msg p) ("\nto: 0x" ++ hex16 p.toAccount) = true := by
  unfold strContains
  rw [data_append, buildL1Msg_data]
  iterate 8 apply containsSeg_append_right
  rw [← List.append_assoc]
  exact containsSeg_self_pre _ _

theorem contains_asset_field (p : MsgParams) :
    strContains (buildL1Msg p) ("\nasset: 0x" ++ hex16 3) = true := by
  unfold strContains
  rw [data_append, buildL1Msg_data]
  iterate 11 apply containsSeg_append_right
  have e3 : (hex16 (3 : Int)).data = ("0000000000000003" : String).data := rfl
  rw [e3, ← List.append_assoc]
  exact containsSeg_self_pre _ _

theorem contains_amount_field (p : MsgParams) :
    strContains (buildL1Msg p) ("\namount: 0x" ++ hex16 p.usdcInt) = true := by
  unfold strContains
  rw [data_append, buildL1Msg_data]
  iterate 13 apply containsSeg_append_right
  rw [← List.append_assoc]
  exact containsSeg_self_pre _ _

theorem contains_fee_field (p : MsgParams) :
    strContains (buildL1Msg p) ("\nfee: 0x" ++ hex16 p.fee) = true := by
  unfold strContains
  rw [data_append, buildL1Msg_data]
  iterate 15 apply containsSeg_append_right
  rw [← List.append_assoc]
  exact containsSeg_self_pre _ _

theorem contains_chainid_field (p : MsgParams) :
    strContains (buildL1Msg p) ("\nchainId: 0x" ++ chainIdHex p.baseUrl) = true := by
  unfold strContains
  rw [data_append, buildL1Msg_data]
  iterate 17 apply containsSeg_append_right
  rw [← List.append_assoc]
  exact containsSeg_self_pre _ _

theorem exists_pre_cons (a rest tail : List Char)
    (h : ∃ pre, rest = pre ++ tail) : ∃ pre, a ++ rest = pre ++ tail := by
  obtain ⟨p, hp⟩ := h
  exact ⟨a ++ p, by simp [hp]⟩

theorem memoHex_length (memo : List Nat) (h : ∀ b ∈ memo, b < 256) :
    (memoHex memo).data.length = 2 * memo.length := by
  induction memo with
  | nil => rfl
  | cons b rest ih =>
    have hb : b < 256 := h b (List.mem_cons_self _ _)
    have hr : ∀ x ∈ rest, x < 256 := fun x hx => h x (List.mem_cons_of_mem _ hx)
    have ihr : ((rest.map (pyFormatHex 2)).flatten).length = 2 * rest.length := ih hr
    have h2 : (pyFormatHex 2 b).length = 2 :=
      pyFormatHex_length 2 b (by norm_num) (by norm_num; omega)
    show (((b :: rest).map (pyFormatHex 2)).flatten).length = 2 * (b :: rest).length
    simp only [List.map_cons, List.flatten_cons, List.length_append, List.length_cons,
      h2, ihr]
    omega

theorem memoHex_lower (memo : List Nat) :
    ∀ c ∈ (memoHex memo).data, isLowerHexDigit c = true := by
  intro c hc
  have hd : (memoHex memo).data = (memo.map (pyFormatHex 2)).flatten := rfl
  rw [hd, List.mem_flatten] at hc
  obtain ⟨piece, hp, hcp⟩ := hc
  rw [List.mem_map] at hp
  obtain ⟨b, -, rfl⟩ := hp
  exact pyFormatHex_lower 2 b c hcp

/-! ## Lemmas on the address codec -/

theorem hexVal_lt (c : Char) (h : isHexDigitChar c = true) : hexVal c < 16 := by
  unfold isHexDigitChar at h
  simp only [Bool.or_eq_true, Bool.and_eq_true, decide_eq_true_eq] at h
  unfold hexVal
  split_ifs <;> omega

theorem fromhex_bytes_lt (l : List Char) :
    ∀ bs, fromhex l = some bs → ∀ b ∈ bs, b < 256 := by
  induction l using fromhex.induct with
  | case1 =>
    intro bs h b hb
    injection h with h
    subst h
    simp at hb
  | case2 c hs =>
    intro bs h b hb
    simp only [fromhex, if_pos hs] at h
    injection h with h
    subst h
    simp at hb
  | case3 c hs =>
    intro bs h b hb
    simp only [fromhex, if_neg hs] at h
    exact Option.noConfusion h
  | case4 c d rest hs ih =>
    intro bs h b hb
    simp only [fromhex, if_pos hs] at h
    exact ih bs h b hb
  | case5 c d rest hs hcd ih =>
    intro bs h b hb
    simp only [fromhex, if_neg hs, if_pos hcd] at h
    cases hrest : fromhex rest with
    | none => rw [hrest] at h; cases h
    | some bs' =>
      rw [hrest] at h
      injection h with h
      subst h
      rcases List.mem_cons.mp hb with hb | hb
      · simp only [Bool.and_eq_true] at hcd
        have := hexVal_lt c hcd.1
        have := hexVal_lt d hcd.2
        omega
      · exact ih bs' hrest b hb
  | case6 c d rest hs hcd =>
    intro bs h b hb
    simp only [fromhex, if_neg hs, if_neg hcd] at h
    exact Option.noConfusion h

theorem memoOfAddress_ok (toAddr : String) (memo : List Nat)
    (h : memoOfAddress toAddr = Except.ok memo) :
    memo.length = 32 ∧ ∀ b ∈ memo, b < 256 := by
  unfold memoOfAddress at h
  split at h
  · exact absurd h (by simp)
  next addrBytes heq =>
    split at h
    next hl =>
      injection h with h
      subst h
      refine ⟨by simp [hl], ?_⟩
      intro b hb
      rcases List.mem_append.mp hb with hb | hb
      · exact fromhex_bytes_lt _ addrBytes heq b hb
      · rw [List.mem_replicate] at hb; omega
    next hl => exact absurd h (by simp)

/-! ## Lemmas on amount conversion -/

theorem intTrunc_intCast (n : Int) : intTrunc ((n : ℚ)) = n := by
  unfold intTrunc
  rw [Rat.num_intCast, Rat.den_intCast]
  simp

theorem msg_memo_decomp (p : MsgParams) :
    ∃ pre, (buildL1Msg p).data =
      pre ++ (("\nmemo: " : String).data ++ ((memoHex p.memo).data ++
        ("\nOnly sign this message for a trusted client!" : String).data)) := by
  rw [buildL1Msg_data]
  iterate 19 apply exists_pre_cons
  exact ⟨[], (List.nil_append _).symm⟩

/-! ## Lemmas on dict update -/

theorem dictGet_dictSet_same (d : List (String × Json)) (k : String) (v : Json) :
    dictGet (dictSet d k v) k = some v := by
  induction d with
  | nil => simp [dictSet, dictGet]
  | cons kv rest ih =>
    obtain ⟨k1, w⟩ := kv
    by_cases hk : k1 = k
    · subst hk
      simp [dictSet, dictGet]
    · simp only [dictSet, if_neg hk, dictGet, ih]

theorem dictGet_dictSet_other (d : List (String × Json)) (k k2 : String) (v : Json)
    (h : k2 ≠ k) : dictGet (dictSet d k v) k2 = dictGet d k2 := by
  induction d with
  | nil =>
    simp only [dictSet, dictGet]
    rw [if_neg (fun hk => h hk.symm)]
  | cons kv rest ih =>
    obtain ⟨k1, w⟩ := kv
    by_cases hk : k1 = k
    · subst hk
      simp only [dictSet, if_pos rfl, dictGet]
      rw [if_neg (fun hk2 => h hk2.symm), if_neg (fun hk2 => h hk2.symm)]
    · simp only [dictSet, if_neg hk, dictGet, ih]

/-! ## Claim C1 -/

/-- C1 (counterexample): rendering the canonical message for amount 10.5 USDC
(which scales exactly to 10500000 minor units) and nonce 42 — the end-to-end
example of the spec — does NOT produce the fragment
`amount: 0x0000000000a05cc0` claimed by the spec: 10500000 is `0xa037a0`,
while `0xa05cc0` is 10509504.  The nonce fragment, in contrast, is present. -/
theorem spec_amount_fragment_refuted :
    intTrunc ((10.5 : ℚ) * (10 : ℚ) ^ 6) = 10500000 ∧
    strContains (buildL1Msg exMsgParams) "amount: 0x0000000000a05cc0" = false ∧
    strContains (buildL1Msg exMsgParams) "nonce: 0x000000000000002a" = true := by
  refine ⟨?_, by decide, by decide⟩
  have h : (10.5 : ℚ) * (10 : ℚ) ^ 6 = ((10500000 : Int) : ℚ) := by norm_num
  rw [h, intTrunc_intCast]

/-- C1 (amended): canonical message rendering is a pure, deterministic
function of its inputs, and for usdcInt = 10500000 (the minor units of 10.5)
and nonce = 42 the rendered message contains the fragment
`amount: 0x0000000000a037a0` (10500000 in hex) and the fragment
`nonce: 0x000000000000002a`. -/
theorem canonical_message_deterministic_with_golden_fragments (p q : MsgParams) :
    (p = q → buildL1Msg p = buildL1Msg q) ∧
    (p.usdcInt = 10500000 →
      strContains (buildL1Msg p) "amount: 0x0000000000a037a0" = true) ∧
    (p.nonce = 42 → strContains (buildL1Msg p) "nonce: 0x000000000000002a" = true) := by
  refine ⟨fun h => by rw [h], fun h => ?_, fun h => ?_⟩
  · have h1 := contains_amount_field p
    rw [h] at h1
    unfold strContains at h1 ⊢
    have e : ("\namount: 0x" ++ hex16 (10500000 : Int)).data =
        ("\n" : String).data ++ ("amount: 0x0000000000a037a0" : String).data := rfl
    rw [e] at h1
    exact containsSeg_drop_head _ _ _ h1
  · have h1 := contains_nonce_field p
    rw [h] at h1
    unfold strContains at h1 ⊢
    have e : ("\nnonce: 0x" ++ hex16 (42 : Int)).data =
        ("\n" : String).data ++ ("nonce: 0x000000000000002a" : String).data := rfl
    rw [e] at h1
    exact containsSeg_drop_head _ _ _ h1

/-- Witness for C1 on the concrete example parameters. -/
theorem canonical_message_deterministic_with_golden_fragments_w :
    strContains (buildL1Msg exMsgParams) "amount: 0x0000000000a037a0" = true ∧
    strContains (buildL1Msg exMsgParams) "nonce: 0x000000000000002a" = true :=
  ⟨(canonical_message_deterministic_with_golden_fragments exMsgParams exMsgParams).2.1 rfl,
   (canonical_message_deterministic_with_golden_fragments exMsgParams exMsgParams).2.2 rfl⟩

/-! ## Claim C2 -/

/-- C2: every numeric field of the canonical message is rendered through
`hex16` as `0x` plus exactly 16 lowercase hex digits of the value masked to
its low 64 bits — so values beyond 64 bits wrap modulo `2^64`; the hard-coded
asset constant equals `hex16 3`, and the chainId constant is `hex16 304`
(mainnet) or `hex16 300` (testnet). -/
theorem numeric_fields_hex16_rendering (n : Int) (p : MsgParams) :
    (hex16 n).data.length = 16 ∧
    (∀ c ∈ (hex16 n).data, isLowerHexDigit c = true) ∧
    decodeHex (hex16 n).data = (n % (2 ^ 64 : Int)).toNat ∧
    hex16 (n + 2 ^ 64) = hex16 n ∧
    strContains (buildL1Msg p) ("\nnonce: 0x" ++ hex16 p.nonce) = true ∧
    strContains (buildL1Msg p) ("\nfrom: 0x" ++ hex16 p.accountIndex) = true ∧
    strContains (buildL1Msg p) ("\napi key: 0x" ++ hex16 p.apiKeyIndex) = true ∧
    strContains (buildL1Msg p) ("\nto: 0x" ++ hex16 p.toAccount) = true ∧
    strContains (buildL1Msg p) ("\nasset: 0x" ++ hex16 3) = true ∧
    strContains (buildL1Msg p) ("\namount: 0x" ++ hex16 p.usdcInt) = true ∧
    strContains (buildL1Msg p) ("\nfee: 0x" ++ hex16 p.fee) = true ∧
    strContains (buildL1Msg p) ("\nchainId: 0x" ++ chainIdHex p.baseUrl) = true ∧
    (chainIdHex p.baseUrl = hex16 304 ∨ chainIdHex p.baseUrl = hex16 300) := by
  refine ⟨hex16_length n, hex16_lower n, hex16_decode n, hex16_wrap n,
    contains_nonce_field p, contains_from_field p, contains_apikey_field p,
    contains_to_field p, contains_asset_field p, contains_amount_field p,
    contains_fee_field p, contains_chainid_field p, ?_⟩
  unfold chainIdHex
  by_cases hb : strContains p.baseUrl "mainnet" = true
  · rw [if_pos hb]; left; rfl
  · rw [if_neg hb]; right; rfl

/-- Witness for C2 at concrete values. -/
theorem numeric_fields_hex16_rendering_w :
    (hex16 5).data.length = 16 ∧
    hex16 ((-1) + 2 ^ 64) = hex16 (-1) ∧
    strContains (buildL1Msg exMsgParams) ("\nnonce: 0x" ++ hex16 exMsgParams.nonce) =
      true :=
  ⟨(numeric_fields_hex16_rendering 5 exMsgParams).1,
   (numeric_fields_hex16_rendering (-1) exMsgParams).2.2.2.1,
   (numeric_fields_hex16_rendering 5 exMsgParams).2.2.2.2.1⟩

/-! ## Claim C3 -/

theorem toNat_ofNat_lt (m : Nat) (h : m < 55296) : (Char.ofNat m).toNat = m := by
  unfold Char.ofNat
  rw [dif_pos (Or.inl h : Nat.isValidChar m)]
  rfl

theorem pyLower_pyUpper (c : Char) : pyLower (pyUpper c) = pyLower c := by
  unfold pyUpper
  by_cases h : 97 ≤ c.toNat ∧ c.toNat ≤ 122
  · rw [if_pos h]
    unfold pyLower
    have ht : (Char.ofNat (c.toNat - 32)).toNat = c.toNat - 32 :=
      toNat_ofNat_lt _ (by omega)
    rw [ht]
    rw [if_pos (by omega : 65 ≤ c.toNat - 32 ∧ c.toNat - 32 ≤ 90)]
    rw [if_neg (by omega : ¬(65 ≤ c.toNat ∧ c.toNat ≤ 90))]
    have h32 : c.toNat - 32 + 32 = c.toNat := by omega
    rw [h32, Char.ofNat_toNat]
  · rw [if_neg h]

/-- C3: for every destination string (case and `0x` handling are applied by
the codec itself), if hex decoding yields exactly 20 bytes the memo is those
20 bytes plus 12 zero bytes (32 bytes total); any other decoded length is an
invalid-address error. -/
theorem address_memo_codec (toAddr : String) (bs : List Nat)
    (h : fromhex (strip0x (toAddr.data.map pyLower)) = some bs) :
    (bs.length = 20 →
      memoOfAddress toAddr = Except.ok (bs ++ List.replicate 12 0) ∧
      (bs ++ List.replicate 12 0).length = 32 ∧
      (bs ++ List.replicate 12 0).take 20 = bs ∧
      (bs ++ List.replicate 12 0).drop 20 = List.replicate 12 0) ∧
    (bs.length ≠ 20 → ∃ e, memoOfAddress toAddr = Except.error e) ∧
    memoOfAddress ⟨toAddr.data.map pyUpper⟩ = memoOfAddress toAddr ∧
    (strip0x (toAddr.data.map pyLower) = toAddr.data.map pyLower →
      memoOfAddress ⟨'0' :: 'x' :: toAddr.data⟩ = memoOfAddress toAddr) := by
  refine ⟨?_, ?_, ?_, ?_⟩
  · intro h20
    have hm : memoOfAddress toAddr = Except.ok (bs ++ List.replicate 12 0) := by
      unfold memoOfAddress
      rw [h]
      simp [h20]
    refine ⟨hm, by simp [h20], ?_, ?_⟩
    · rw [← h20]; exact List.take_left _ _
    · rw [← h20]; exact List.drop_left _ _
  · intro h20
    refine ⟨"Invalid address length: " ++ toString bs.length, ?_⟩
    unfold memoOfAddress
    rw [h]
    simp [h20]
  · unfold memoOfAddress
    have hd : (String.mk (toAddr.data.map pyUpper)).data = toAddr.data.map pyUpper :=
      rfl
    have hcomp : List.map (pyLower ∘ pyUpper) toAddr.data =
        List.map pyLower toAddr.data :=
      List.map_congr_left (fun a _ => pyLower_pyUpper a)
    rw [hd, List.map_map, hcomp]
  · intro hs
    unfold memoOfAddress
    have hd : (String.mk ('0' :: 'x' :: toAddr.data)).data = '0' :: 'x' :: toAddr.data :=
      rfl
    rw [hd, List.map_cons, List.map_cons]
    have p0 : pyLower '0' = '0' := rfl
    have px : pyLower 'x' = 'x' := rfl
    rw [p0, px]
    have s1 : strip0x ('0' :: 'x' :: toAddr.data.map pyLower) =
        toAddr.data.map pyLower := rfl
    rw [s1, hs]

/-- Witness for C3 on the example address (uppercase `0X` prefix variant). -/
theorem address_memo_codec_w :
    memoOfAddress exAddr = Except.ok (List.replicate 20 17 ++ List.replicate 12 0) ∧
    (List.replicate 20 17 ++ List.replicate 12 0).length = 32 ∧
    (List.replicate 20 17 ++ List.replicate 12 0).take 20 = List.replicate 20 17 ∧
    (List.replicate 20 17 ++ List.replicate 12 0).drop 20 = List.replicate 12 0 :=
  (address_memo_codec exAddr (List.replicate 20 17) (by decide)).1 (by decide)

/-! ## Claim C4 -/

/-- C4 (code defect): exact decimal scaling by `10^6` (what line 99 computes
on the decimal string it is given) is exact — 10.5 gives 10500000, 0.000001
gives 1 — but the handler first coerces the request amount through binary
`float`.  The decimal 8589934592.000001 scales exactly to 8589934592000001,
yet it is not a dyadic rational, hence not representable in binary floating
point of any precision: `float` must move it to a different value (the
nearest binary64 reads back as 8589934592.000002, which scales to
8589934592000002). -/
theorem amount_conversion_exact_scaling_vs_float :
    exactMinorUnits 10 [5] = 10500000 ∧
    exactMinorUnits 0 [0, 0, 0, 0, 0, 1] = 1 ∧
    exactMinorUnits 8589934592 [0, 0, 0, 0, 0, 1] = 8589934592000001 ∧
    exactMinorUnits 8589934592 [0, 0, 0, 0, 0, 2] = 8589934592000002 ∧
    ¬ dyadicRat (decimalVal 8589934592 [0, 0, 0, 0, 0, 1]) := by
  refine ⟨?_, ?_, ?_, ?_, ?_⟩
  · have h : decimalVal 10 [5] * (10 : ℚ) ^ 6 = ((10500000 : Int) : ℚ) := by
      norm_num [decimalVal, fracVal]
    unfold exactMinorUnits
    rw [h, intTrunc_intCast]
  · have h : decimalVal 0 [0, 0, 0, 0, 0, 1] * (10 : ℚ) ^ 6 = ((1 : Int) : ℚ) := by
      norm_num [decimalVal, fracVal]
    unfold exactMinorUnits
    rw [h, intTrunc_intCast]
  · have h : decimalVal 8589934592 [0, 0, 0, 0, 0, 1] * (10 : ℚ) ^ 6 =
        ((8589934592000001 : Int) : ℚ) := by
      norm_num [decimalVal, fracVal]
    unfold exactMinorUnits
    rw [h, intTrunc_intCast]
  · have h : decimalVal 8589934592 [0, 0, 0, 0, 0, 2] * (10 : ℚ) ^ 6 =
        ((8589934592000002 : Int) : ℚ) := by
      norm_num [decimalVal, fracVal]
    unfold exactMinorUnits
    rw [h, intTrunc_intCast]
  · rintro ⟨m, k, hmk⟩
    have hv : decimalVal 8589934592 [0, 0, 0, 0, 0, 1] * 1000000 =
        (8589934592000001 : ℚ) := by
      norm_num [decimalVal, fracVal]
    have h2 : (8589934592000001 : ℚ) * 2 ^ k = (m : ℚ) * 1000000 := by
      calc (8589934592000001 : ℚ) * 2 ^ k
          = decimalVal 8589934592 [0, 0, 0, 0, 0, 1] * 1000000 * 2 ^ k := by rw [hv]
        _ = decimalVal 8589934592 [0, 0, 0, 0, 0, 1] * 2 ^ k * 1000000 := by ring
        _ = (m : ℚ) * 1000000 := by rw [hmk]
    have h3 : (8589934592000001 : Int) * 2 ^ k = m * 1000000 := by exact_mod_cast h2
    have h5 : (5 : Int) ∣ 8589934592000001 * 2 ^ k := by
      rw [h3]
      exact ⟨m * 200000, by ring⟩
    have hp : Prime (5 : Int) := by norm_num
    rcases hp.dvd_mul.mp h5 with hdvd | hdvd
    · norm_num at hdvd
    · have h52 : (5 : Int) ∣ 2 := hp.dvd_of_dvd_pow hdvd
      norm_num at h52

/-! ## Claim C5 -/

/-- C5: the patch step overwrites exactly the `Memo` field (with the byte
list of the real memo) and the `L1Sig` field (with the L1 signature); every
other key of the deserialized transaction is unchanged. -/
theorem patch_overwrites_exactly_memo_and_l1sig (tx : List (String × Json))
    (memo : List Nat) (sig : String) (k : String) :
    dictGet (patchTx tx memo sig) "Memo" =
      some (Json.arr (memo.map fun b => Json.num (b : Int))) ∧
    dictGet (patchTx tx memo sig) "L1Sig" = some (Json.str sig) ∧
    (k ≠ "Memo" → k ≠ "L1Sig" → dictGet (patchTx tx memo sig) k = dictGet tx k) := by
  unfold patchTx
  refine ⟨?_, dictGet_dictSet_same _ _ _, ?_⟩
  · rw [dictGet_dictSet_other _ _ _ _ (by decide : ("Memo" : String) ≠ "L1Sig")]
    exact dictGet_dictSet_same _ _ _
  · intro h1 h2
    rw [dictGet_dictSet_other _ _ _ _ h2, dictGet_dictSet_other _ _ _ _ h1]

/-- Witness for C5: patching the example transaction leaves `Nonce` intact
and sets the two overwritten fields. -/
theorem patch_overwrites_exactly_memo_and_l1sig_w :
    dictGet (patchTx exTx [17] "0xs") "Nonce" = dictGet exTx "Nonce" ∧
    dictGet (patchTx exTx [17] "0xs") "Memo" =
      some (Json.arr ([17].map fun b => Json.num (b : Int))) ∧
    dictGet (patchTx exTx [17] "0xs") "L1Sig" = some (Json.str "0xs") :=
  ⟨(patch_overwrites_exactly_memo_and_l1sig exTx [17] "0xs" "Nonce").2.2
      (by decide) (by decide),
   (patch_overwrites_exactly_memo_and_l1sig exTx [17] "0xs" "Nonce").1,
   (patch_overwrites_exactly_memo_and_l1sig exTx [17] "0xs" "Nonce").2.1⟩

/-! ## Claim C6 -/

/-- C6: the L2 signing primitive is invoked with `memo_hex` — the 64-character
hex string of the memo, not the real 32-byte memo — and the real 32-byte memo
is only injected afterwards by the patch step into the submitted payload. -/
theorem l2_signing_memo_argument (env : Env) (inp : Inp) (tok : String)
    (pool : PoolBody) (fee nonce : Int) (memo : List Nat)
    (tx : List (String × Json)) (res : Json)
    (h1 : env.checkClientErr = none) (h2 : env.authTokenRes = Except.ok tok)
    (h3 : env.poolRes = Except.ok pool) (h4 : pool.code = 200)
    (h5 : env.feeRes = Except.ok fee) (h6 : env.nonceRes = Except.ok nonce)
    (h7 : memoOfAddress inp.toAddr = Except.ok memo)
    (h8 : env.signRes = Except.ok tx) (h9 : env.submitRes = Except.ok res) :
    (processWithdraw env inp).2 =
      [Call.checkClient, Call.createAuthToken, Call.poolInfoGet inp.accountIndex,
        Call.transferFeeInfo inp.accountIndex pool.toAccountIndex,
        Call.nextNonce inp.accountIndex inp.apiKeyIndex,
        Call.signL1 (buildL1Msg ⟨nonce, inp.accountIndex, inp.apiKeyIndex,
          pool.toAccountIndex, intTrunc (inp.amount * (10 : ℚ) ^ 6), fee,
          env.baseUrl, memo⟩),
        Call.signTransfer pool.toAccountIndex (intTrunc (inp.amount * (10 : ℚ) ^ 6))
          fee (memoHex memo) nonce inp.apiKeyIndex,
        Call.submitFastWithdraw
          (patchTx tx memo ("0x" ++ env.sigHexOf (buildL1Msg ⟨nonce,
            inp.accountIndex, inp.apiKeyIndex, pool.toAccountIndex,
            intTrunc (inp.amount * (10 : ℚ) ^ 6), fee, env.baseUrl, memo⟩)))
          inp.toAddr] ∧
    (memoHex memo).data.length = 64 ∧
    memo.length = 32 ∧
    dictGet (patchTx tx memo ("0x" ++ env.sigHexOf (buildL1Msg ⟨nonce,
        inp.accountIndex, inp.apiKeyIndex, pool.toAccountIndex,
        intTrunc (inp.amount * (10 : ℚ) ^ 6), fee, env.baseUrl, memo⟩)))
      "Memo" = some (Json.arr (memo.map fun b => Json.num (b : Int))) := by
  obtain ⟨h32, hb⟩ := memoOfAddress_ok inp.toAddr memo h7
  refine ⟨?_, ?_, h32, ?_⟩
  · simp only [processWithdraw, h1, h2, h3, h4, h5, h6, h7, h8, h9, if_pos]
  · rw [memoHex_length memo hb, h32]
  · unfold patchTx
    rw [dictGet_dictSet_other _ _ _ _ (by decide : ("Memo" : String) ≠ "L1Sig")]
    exact dictGet_dictSet_same _ _ _

/-- Witness for C6 on the example scenario. -/
theorem l2_signing_memo_argument_w :
    (memoHex exMemo).data.length = 64 ∧ exMemo.length = 32 := by
  have h := l2_signing_memo_argument envOk inpOk "token" exPool 1000 42 exMemo exTx
    (Json.obj [("code", Json.num 200)]) rfl rfl rfl rfl rfl rfl rfl rfl rfl
  exact ⟨h.2.1, h.2.2.1⟩

/-! ## Claim C7 -/

/-- C7: the chainId constant is selected solely by the substring test
`"mainnet" in BASE_URL`: mainnet gives 304 (`0x0000000000000130`), anything
else — including the default base URL, which does not contain `mainnet` —
gives 300 (`0x000000000000012c`). -/
theorem chain_id_selected_by_mainnet_substring (url : String) :
    chainIdHex url =
      (if strContains url "mainnet" = true then hex16 304 else hex16 300) ∧
    hex16 304 = "0000000000000130" ∧
    hex16 300 = "000000000000012c" ∧
    strContains defaultBaseUrl "mainnet" = false ∧
    chainIdHex defaultBaseUrl = hex16 300 := by
  refine ⟨?_, rfl, rfl, by decide, by decide⟩
  unfold chainIdHex
  by_cases hb : strContains url "mainnet" = true
  · rw [if_pos hb, if_pos hb]; rfl
  · rw [if_neg hb, if_neg hb]; rfl

/-- Witness for C7 at the default base URL. -/
theorem chain_id_selected_by_mainnet_substring_w :
    chainIdHex defaultBaseUrl = hex16 300 ∧ hex16 304 = "0000000000000130" :=
  ⟨(chain_id_selected_by_mainnet_substring defaultBaseUrl).2.2.2.2,
   (chain_id_selected_by_mainnet_substring defaultBaseUrl).2.1⟩

/-! ## Claim C9 -/

/-- C9: if the fee quote or the nonce quote fails, the submission call is
never issued — every call in the trace is one of the read-only calls, none is
the submission — and the whole withdrawal ends in an error. -/
theorem no_submission_after_quote_failure (env : Env) (inp : Inp)
    (h : exceptFailed env.feeRes = true ∨ exceptFailed env.nonceRes = true) :
    (∀ c ∈ (processWithdraw env inp).2, isReadCall c = true) ∧
    (∀ c ∈ (processWithdraw env inp).2, isSubmitCall c = false) ∧
    (∃ m, (processWithdraw env inp).1 = Except.error m) := by
  cases hc : env.checkClientErr with
  | some err =>
    refine ⟨?_, ?_, ⟨PErr.exc ("API key verification failed: " ++ err), ?_⟩⟩ <;>
      simp [processWithdraw, hc, isReadCall, isSubmitCall]
  | none =>
  cases ha : env.authTokenRes with
  | error e =>
    refine ⟨?_, ?_, ⟨PErr.exc ("Auth token failed: " ++ e), ?_⟩⟩ <;>
      simp [processWithdraw, hc, ha, isReadCall, isSubmitCall]
  | ok tok =>
  cases hp : env.poolRes with
  | error e =>
    refine ⟨?_, ?_, ⟨PErr.exc e, ?_⟩⟩ <;>
      simp [processWithdraw, hc, ha, hp, isReadCall, isSubmitCall]
  | ok pool =>
  by_cases hcode : pool.code = 200
  · cases hf : env.feeRes with
    | error e =>
      refine ⟨?_, ?_, ⟨PErr.exc e, ?_⟩⟩ <;>
        simp [processWithdraw, hc, ha, hp, hcode, hf, isReadCall, isSubmitCall]
    | ok fee =>
      cases hn : env.nonceRes with
      | error e =>
        refine ⟨?_, ?_, ⟨PErr.exc e, ?_⟩⟩ <;>
          simp [processWithdraw, hc, ha, hp, hcode, hf, hn, isReadCall, isSubmitCall]
      | ok nonce =>
        rcases h with h | h
        · rw [hf] at h; simp [exceptFailed] at h
        · rw [hn] at h; simp [exceptFailed] at h
  · refine ⟨?_, ?_, ⟨PErr.exc ("Pool info failed: " ++ pool.message), ?_⟩⟩ <;>
      simp [processWithdraw, hc, ha, hp, hcode, isReadCall, isSubmitCall]

/-- Witness for C9: with the fee quote failing, the trace stops at the reads. -/
theorem no_submission_after_quote_failure_w :
    (∀ c ∈ (processWithdraw envFeeFail inpOk).2, isReadCall c = true) ∧
    (∀ c ∈ (processWithdraw envFeeFail inpOk).2, isSubmitCall c = false) ∧
    (∃ m, (processWithdraw envFeeFail inpOk).1 = Except.error m) :=
  no_submission_after_quote_failure envFeeFail inpOk (Or.inl rfl)

/-! ## Claim C10 -/

/-- C10: the memo line of the canonical message is `memo: ` followed by
exactly 64 lowercase hex characters — in particular the character `x` never
occurs in the memo hex, so the memo value carries no `0x` marker, unlike the
numeric fields. -/
theorem memo_line_unprefixed_hex (memo : List Nat) (h32 : memo.length = 32)
    (hb : ∀ b ∈ memo, b < 256) :
    (memoHex memo).data.length = 64 ∧
    (∀ c ∈ (memoHex memo).data, isLowerHexDigit c = true) ∧
    (∀ c ∈ (memoHex memo).data, c ≠ 'x') ∧
    (∀ p : MsgParams, p.memo = memo →
      ∃ pre, (buildL1Msg p).data = pre ++ (("\nmemo: " : String).data ++
        ((memoHex memo).data ++
          ("\nOnly sign this message for a trusted client!" : String).data))) := by
  refine ⟨?_, memoHex_lower memo, ?_, ?_⟩
  · rw [memoHex_length memo hb, h32]
  · intro c hc
    exact lowerHexDigit_ne_x c (memoHex_lower memo c hc)
  · intro p hp
    rw [← hp]
    exact msg_memo_decomp p

/-- Witness for C10 on the example memo. -/
theorem memo_line_unprefixed_hex_w :
    (memoHex exMemo).data.length = 64 ∧
    (∀ c ∈ (memoHex exMemo).data, isLowerHexDigit c = true) :=
  ⟨(memo_line_unprefixed_hex exMemo (by decide) (by decide)).1,
   (memo_line_unprefixed_hex exMemo (by decide) (by decide)).2.1⟩

/-! ## Claim C8 -/

/-- C8: the withdraw endpoint maps validation failures (missing amount,
non-positive amount, `ValueError` from amount parsing, malformed destination
address) to HTTP 400, and every remote-step failure (API-key check, auth
token, pool transport or pool status, fee quote, nonce quote, L2 signing,
submission) to HTTP 500 with the upstream message in the body. -/
theorem withdraw_http_status_mapping (env : Env) (req : Req) (a : ℚ)
    (e tok : String) (pool : PoolBody) (fee nonce : Int) (memo : List Nat)
    (tx : List (String × Json)) :
    (req.amountVal = none →
      withdrawHandler env req = (400, errBody "Missing \x27amount\x27 parameter")) ∧
    (req.amountVal = some (Except.error e) →
      withdrawHandler env req = (400, errBody ("Invalid amount: " ++ e))) ∧
    (req.amountVal = some (Except.ok a) → a ≤ 0 →
      withdrawHandler env req = (400, errBody "Amount must be positive")) ∧
    (req.amountVal = some (Except.ok a) → ¬a ≤ 0 →
      env.checkClientErr = some e →
      withdrawHandler env req =
        (500, errBody ("API key verification failed: " ++ e))) ∧
    (req.amountVal = some (Except.ok a) → ¬a ≤ 0 →
      env.checkClientErr = none → env.authTokenRes = Except.error e →
      withdrawHandler env req = (500, errBody ("Auth token failed: " ++ e))) ∧
    (req.amountVal = some (Except.ok a) → ¬a ≤ 0 →
      env.checkClientErr = none → env.authTokenRes = Except.ok tok →
      env.poolRes = Except.error e →
      withdrawHandler env req = (500, errBody e)) ∧
    (req.amountVal = some (Except.ok a) → ¬a ≤ 0 →
      env.checkClientErr = none → env.authTokenRes = Except.ok tok →
      env.poolRes = Except.ok pool → pool.code ≠ 200 →
      withdrawHandler env req =
        (500, errBody ("Pool info failed: " ++ pool.message))) ∧
    (req.amountVal = some (Except.ok a) → ¬a ≤ 0 →
      env.checkClientErr = none → env.authTokenRes = Except.ok tok →
      env.poolRes = Except.ok pool → pool.code = 200 →
      env.feeRes = Except.error e →
      withdrawHandler env req = (500, errBody e)) ∧
    (req.amountVal = some (Except.ok a) → ¬a ≤ 0 →
      env.checkClientErr = none → env.authTokenRes = Except.ok tok →
      env.poolRes = Except.ok pool → pool.code = 200 →
      env.feeRes = Except.ok fee → env.nonceRes = Except.error e →
      withdrawHandler env req = (500, errBody e)) ∧
    (req.amountVal = some (Except.ok a) → ¬a ≤ 0 →
      env.checkClientErr = none → env.authTokenRes = Except.ok tok →
      env.poolRes = Except.ok pool → pool.code = 200 →
      env.feeRes = Except.ok fee → env.nonceRes = Except.ok nonce →
      memoOfAddress req.toAddr = Except.error e →
      withdrawHandler env req = (400, errBody ("Invalid amount: " ++ e))) ∧
    (req.amountVal = some (Except.ok a) → ¬a ≤ 0 →
      env.checkClientErr = none → env.authTokenRes = Except.ok tok →
      env.poolRes = Except.ok pool → pool.code = 200 →
      env.feeRes = Except.ok fee → env.nonceRes = Except.ok nonce →
      memoOfAddress req.toAddr = Except.ok memo →
      env.signRes = Except.error e →
      withdrawHandler env req = (500, errBody ("L2 signing failed: " ++ e))) ∧
    (req.amountVal = some (Except.ok a) → ¬a ≤ 0 →
      env.checkClientErr = none → env.authTokenRes = Except.ok tok →
      env.poolRes = Except.ok pool → pool.code = 200 →
      env.feeRes = Except.ok fee → env.nonceRes = Except.ok nonce →
      memoOfAddress req.toAddr = Except.ok memo →
      env.signRes = Except.ok tx → env.submitRes = Except.error e →
      withdrawHandler env req = (500, errBody e)) := by
  refine ⟨?_, ?_, ?_, ?_, ?_, ?_, ?_, ?_, ?_, ?_, ?_, ?_⟩
  · intro h1
    simp [withdrawHandler, h1]
  · intro h1
    simp [withdrawHandler, h1]
  · intro h1 h2
    simp [withdrawHandler, h1, h2]
  · intro h1 h2 h3
    simp [withdrawHandler, processWithdraw, h1, h2, h3]
  · intro h1 h2 h3 h4
    simp [withdrawHandler, processWithdraw, h1, h2, h3, h4]
  · intro h1 h2 h3 h4 h5
    simp [withdrawHandler, processWithdraw, h1, h2, h3, h4, h5]
  · intro h1 h2 h3 h4 h5 h6
    simp [withdrawHandler, processWithdraw, h1, h2, h3, h4, h5, h6]
  · intro h1 h2 h3 h4 h5 h6 h7
    simp [withdrawHandler, processWithdraw, h1, h2, h3, h4, h5, h6, h7]
  · intro h1 h2 h3 h4 h5 h6 h7 h8
    simp [withdrawHandler, processWithdraw, h1, h2, h3, h4, h5, h6, h7, h8]
  · intro h1 h2 h3 h4 h5 h6 h7 h8 h9
    simp [withdrawHandler, processWithdraw, h1, h2, h3, h4, h5, h6, h7, h8, h9]
  · intro h1 h2 h3 h4 h5 h6 h7 h8 h9 h10
    simp [withdrawHandler, processWithdraw, h1, h2, h3, h4, h5, h6, h7, h8, h9, h10]
  · intro h1 h2 h3 h4 h5 h6 h7 h8 h9 h10 h11
    simp [withdrawHandler, processWithdraw, h1, h2, h3, h4, h5, h6, h7, h8, h9, h10,
      h11]

/-- Witness for C8: a missing amount gives 400, a failed submission gives 500
with the upstream message, a short address gives 400. -/
theorem withdraw_http_status_mapping_w :
    withdrawHandler envOk reqMissing =
      (400, errBody "Missing \x27amount\x27 parameter") ∧
    withdrawHandler envSubmitFail reqOk = (500, errBody "submission rejected") ∧
    withdrawHandler envOk reqBadAddr =
      (400, errBody ("Invalid amount: " ++ "Invalid address length: 2")) := by
  refine ⟨?_, ?_, ?_⟩
  · exact (withdraw_http_status_mapping envOk reqMissing 1 "" "" exPool 0 0 [] []).1 rfl
  · exact (withdraw_http_status_mapping envSubmitFail reqOk 1 "submission rejected"
      "token" exPool 1000 42 exMemo exTx).2.2.2.2.2.2.2.2.2.2.2 rfl (by norm_num)
      rfl rfl rfl rfl rfl rfl rfl rfl rfl
  · exact (withdraw_http_status_mapping envOk reqBadAddr 1
      "Invalid address length: 2" "token" exPool 1000 42 [] []).2.2.2.2.2.2.2.2.2.1
      rfl (by norm_num) rfl rfl rfl rfl rfl rfl rfl

end FastWithdraw
